import Mathlib

/-
Verification of the grocery-deal-finder semantic classification core.

Shallow embedding of:
  - the taxonomy table (services/taxonomy.ts),
  - the worker-side vector classifier (workers/classifier.worker.ts),
  - the chunking utilities createShards and the guarded cosineSimilarity
    (utils/chunking.ts),
  - the map-reduce shard orchestration and match hydration of the agent
    pipeline (services/geminiService.ts).

Real vectors are embedded as List real; the floating-point arithmetic of the
source is idealized as exact real arithmetic.  Mathlib's total division
(x / 0 = 0) stands in for the IEEE quotient; every theorem that depends on a
quotient only does so where the denominator is provably nonzero, so the
idealization is not load-bearing except where explicitly noted.
-/

namespace GroceryDealFinder

/-- SubCategory record from services/taxonomy.ts. -/
structure SubCategory where
  name : String
  parent : String
  embeddingText : String
  deriving DecidableEq

namespace Taxonomy

/-- PARENT_CATEGORIES from services/taxonomy.ts: the 10 fixed parent names. -/
def PARENT_CATEGORIES : List String :=
  [ "Produce"
  , "Meat & Seafood"
  , "Deli & Bakery"
  , "Dairy & Eggs"
  , "Pantry & Dry Goods"
  , "Snacks & Sweets"
  , "Beverages"
  , "Frozen Foods"
  , "Household & Cleaning"
  , "Personal Care & Health" ]

/-- SUB_CATEGORY_EXAMPLES from services/taxonomy.ts: the record mapping a
subcategory name to its descriptive example text (none models a missing key). -/
def SUB_CATEGORY_EXAMPLES : String → Option String
  | "Fresh Fruit" => some "Apples, Bananas, Berries, Grapes, Oranges, Melons"
  | "Fresh Vegetables" => some "Lettuce, Onions, Potatoes, Carrots, Broccoli, Tomatoes, Peppers"
  | "Herbs & Aromatics" => some "Garlic, Fresh Basil, Ginger, Parsley, Cilantro, Mint"
  | "Poultry" => some "Chicken breast, Whole turkey, Chicken thighs, Ground turkey"
  | "Beef & Pork" => some "Ground beef, Steaks, Bacon, Chops, Roast, Ham, Sausage"
  | "Seafood" => some "Salmon, Shrimp, Fresh fish, Tuna, Crab, Lobster"
  | "Plant-Based Meat" => some "Impossible Burger, Tofu, Beyond Meat, Tempeh"
  | "Deli Meat & Cheese" => some "Sliced Turkey, Provolone, Ham, Roast Beef, Salami"
  | "Fresh Bakery" => some "Bagels, Muffins, store-baked Cookies, Bread, Rolls, Cakes, Donuts"
  | "Prepared Meals" => some "Rotisserie Chicken, Sushi, Potato Salad, Coleslaw, Ready to eat meals"
  | "Milk & Cream" => some "Whole milk, Almond milk, Coffee creamer, Soy milk, Oat milk, Half and half"
  | "Cheese" => some "Blocks, Shredded, String cheese, Cheddar, Mozzarella, Parmesan"
  | "Eggs & Butter" => some "Eggs, Butter, Margarine, Egg whites"
  | "Yogurt" => some "Greek Yogurt, Yogurt Tubes, Yogurt Cups, Skyr, Kefir"
  | "Pasta, Rice & Grains" => some "Spaghetti, Quinoa, Mac & Cheese boxes, Rice, Noodles, Oats"
  | "Canned & Jarred" => some "Beans, Soup, Pasta Sauce, Pickles, Canned Vegetables, Canned Fruit"
  | "Baking & Spices" => some "Flour, Sugar, Salt, Olive Oil, Vegetable Oil, Spices, Cake mix"
  | "Breakfast & Cereal" => some "Cheerios, Oatmeal, Pancake mix, Granola, Cereal bars"
  | "Condiments" => some "Ketchup, Mayo, Salad Dressing, Mustard, BBQ Sauce, Soy Sauce"
  | "Salty Snacks" => some "Chips, Pretzels, Popcorn, Crackers, Tortilla Chips"
  | "Sweet Snacks" => some "Cookies, Candy bars, Fruit snacks, Chocolate, Gummies"
  | "Nuts & Dried Fruit" => some "Almonds, Raisins, Peanuts, Cashews, Dried Mango"
  | "Water & Seltzer" => some "Bottled water, LaCroix, Sparkling water, Mineral water"
  | "Soda & Soft Drinks" => some "Coke, Pepsi, Energy drinks, Sprite, Dr Pepper, Gatorade"
  | "Coffee & Tea" => some "Ground coffee, K-Cups, Tea bags, Iced Coffee, Loose leaf tea"
  | "Alcohol" => some "Beer, Wine, Spirits, Hard Seltzer"
  | "Frozen Meals & Pizza" => some "Frozen Pizza, Digiorno, Lean Cuisine, Frozen Dinners, Burritos"
  | "Frozen Veggies & Fruit" => some "Frozen Peas, Frozen Corn, Smoothie mixes, Frozen Berries"
  | "Ice Cream & Desserts" => some "Ice Cream Pints, Popsicles, Gelato, Sorbet, Frozen Yogurt"
  | "Paper Products" => some "Toilet paper, Paper towels, Napkins, Tissues, Paper plates"
  | "Cleaning Supplies" => some "Dish soap, Laundry detergent, Sponges, Bleach, All purpose cleaner"
  | "Pet Care" => some "Dog food, Cat litter, Cat food, Dog treats"
  | "Toiletries" => some "Shampoo, Toothpaste, Deodorant, Body wash, Soap, Razor"
  | "Pharmacy" => some "Vitamins, Pain relief, First aid, Cough syrup, Supplements"
  | "Baby" => some "Diapers, Wipes, Formula, Baby food"
  | _ => none

/-- TAXONOMY_TREE from services/taxonomy.ts, in source enumeration order. -/
def TAXONOMY_TREE : List (String × List String) :=
  [ ("Produce", ["Fresh Fruit", "Fresh Vegetables", "Herbs & Aromatics"])
  , ("Meat & Seafood", ["Poultry", "Beef & Pork", "Seafood", "Plant-Based Meat"])
  , ("Deli & Bakery", ["Deli Meat & Cheese", "Fresh Bakery", "Prepared Meals"])
  , ("Dairy & Eggs", ["Milk & Cream", "Cheese", "Eggs & Butter", "Yogurt"])
  , ("Pantry & Dry Goods",
      ["Pasta, Rice & Grains", "Canned & Jarred", "Baking & Spices",
       "Breakfast & Cereal", "Condiments"])
  , ("Snacks & Sweets", ["Salty Snacks", "Sweet Snacks", "Nuts & Dried Fruit"])
  , ("Beverages", ["Water & Seltzer", "Soda & Soft Drinks", "Coffee & Tea", "Alcohol"])
  , ("Frozen Foods",
      ["Frozen Meals & Pizza", "Frozen Veggies & Fruit", "Ice Cream & Desserts"])
  , ("Household & Cleaning", ["Paper Products", "Cleaning Supplies", "Pet Care"])
  , ("Personal Care & Health", ["Toiletries", "Pharmacy", "Baby"]) ]

/-- SUB_CATEGORIES from services/taxonomy.ts: the flat anchor list, built by
walking TAXONOMY_TREE parent by parent and, for each subcategory, attaching the
embedding text, which is the bare name when no example text exists and
otherwise the name, a colon and the examples. -/
def SUB_CATEGORIES : List SubCategory :=
  (TAXONOMY_TREE.map fun pc =>
    pc.2.map fun sub =>
      let examples := (SUB_CATEGORY_EXAMPLES sub).getD ""
      { name := sub
        parent := pc.1
        embeddingText := if examples = "" then sub else sub ++ ": " ++ examples }).flatten

end Taxonomy

/-- Sum of pairwise products over the common indices of the two vectors; the
dotProduct accumulator of both cosineSimilarity loops.  The source loops over
the indices of its first argument; on the equal-length vectors every claim
exercises, that coincides with this zipWith. -/
def dotList (a b : List ℝ) : ℝ :=
  (List.zipWith (fun x y => x * y) a b).sum

/-- Sum of squares of a vector's entries: the normA / normB accumulators of
the cosineSimilarity loops (the squared euclidean norm). -/
def sumSq (a : List ℝ) : ℝ :=
  (a.map fun x => x * x).sum

namespace Worker

/-- cosineSimilarity from workers/classifier.worker.ts (no zero-denominator
guard, no length check): dotProduct / (sqrt normA * sqrt normB), where the
single loop runs over the indices of the first argument, so normB sums the
squares of only the first a.length entries of b.  In the source a zero
denominator yields NaN; here Mathlib's total division yields 0, and every
theorem about this function assumes nonzero norms so that the two readings
agree. -/
noncomputable def cosineSimilarity (a b : List ℝ) : ℝ :=
  dotList a b / (Real.sqrt (sumSq a) * Real.sqrt (sumSq (b.take a.length)))

/-- One cached anchor of the worker: an embedding vector zipped with its
SubCategory descriptor. -/
structure Anchor where
  vector : List ℝ
  subCategory : SubCategory

/-- The record returned by classifyItem in workers/classifier.worker.ts. -/
structure ClassificationResult where
  subCategory : String
  parentCategory : String
  similarity : ℝ

/-- The best-match scan of classifyItem (workers/classifier.worker.ts): for
each anchor in order, compute the similarity and replace the running best
exactly when the new similarity is strictly greater.  The accumulator pair is
(maxSim, bestMatch), entering the loop as (-1, none). -/
noncomputable def classifyLoop (itemVector : List ℝ) :
    List Anchor → ℝ → Option SubCategory → ℝ × Option SubCategory
  | [], maxSim, bestMatch => (maxSim, bestMatch)
  | anchor :: rest, maxSim, bestMatch =>
    let sim := cosineSimilarity itemVector anchor.vector
    if maxSim < sim then classifyLoop itemVector rest sim (some anchor.subCategory)
    else classifyLoop itemVector rest maxSim bestMatch

/-- classifyItem from workers/classifier.worker.ts.  The extractor oracle
(text to mean-pooled normalized embedding vector) is passed in as the function
embed; the anchor-vector cache as anchors.  After the scan, a non-null
bestMatch yields its name/parent with the running maximum similarity, and the
null case yields the fixed fallback. -/
noncomputable def classifyItem (embed : String → List ℝ) (anchors : List Anchor)
    (itemText : String) : ClassificationResult :=
  let itemVector := embed itemText
  let r := classifyLoop itemVector anchors (-1) none
  match r.2 with
  | some bestMatch =>
    { subCategory := bestMatch.name
      parentCategory := bestMatch.parent
      similarity := r.1 }
  | none =>
    { subCategory := "Unknown"
      parentCategory := "Pantry & Dry Goods"
      similarity := 0 }

/-- classifyBatch from workers/classifier.worker.ts:
Promise.all(items.map(classifyItem)) — the combined promise resolves to the
per-item results in input-list order, which the embedding renders as map. -/
noncomputable def classifyBatch (embed : String → List ℝ) (anchors : List Anchor)
    (items : List String) : List ClassificationResult :=
  items.map (classifyItem embed anchors)

end Worker

namespace Chunking

/-- The body of the createShards loop (utils/chunking.ts):
for (i = 0; i < items.length; i += shardSize) push items.slice(i, i + shardSize).
The loop state drop i items stands for the index i (the pushed slice is its
take shardSize, the loop guard is its non-emptiness); fuel counts remaining
loop iterations, and none models the infinite loop the source runs into when
shardSize = 0 on a non-empty array. -/
def createShardsGo {α : Type} : ℕ → List α → ℕ → Option (List (List α))
  | 0, _, _ => none
  | fuel + 1, rest, shardSize =>
    if rest.isEmpty then some []
    else
      match createShardsGo fuel (rest.drop shardSize) shardSize with
      | none => none
      | some shards => some (rest.take shardSize :: shards)

/-- createShards from utils/chunking.ts, run with enough fuel for any
terminating execution (each iteration with shardSize at least 1 removes at
least one item). -/
def createShards {α : Type} (items : List α) (shardSize : ℕ) : Option (List (List α)) :=
  createShardsGo (items.length + 1) items shardSize

/-- cosineSimilarity from utils/chunking.ts: throws on a length mismatch,
returns 0 on a zero denominator, and otherwise the quotient. -/
noncomputable def cosineSimilarity (a b : List ℝ) : Except String ℝ :=
  if a.length ≠ b.length then Except.error "Vectors must have the same length"
  else
    let denominator := Real.sqrt (sumSq a) * Real.sqrt (sumSq b)
    if denominator = 0 then Except.ok 0
    else Except.ok (dotList a b / denominator)

end Chunking

namespace Gemini

/-- Promise.all over already-settled shard outcomes, in list order: the
combined wait resolves to the list of values when every entry resolved and
rejects with the first rejection otherwise (geminiService.ts MAP stage). -/
def promiseAll {ε α : Type} : List (Except ε α) → Except ε (List α)
  | [] => Except.ok []
  | x :: rest =>
    match x with
    | Except.error e => Except.error e
    | Except.ok a =>
      match promiseAll rest with
      | Except.error e => Except.error e
      | Except.ok tail => Except.ok (a :: tail)

/-- The map-reduce core of runAgentLibrarian (geminiService.ts): await all
per-shard map steps together (Promise.all over shards.map processShard) and
flatten the shard results in order (shardResults.flat()).  The per-shard map
step — normalization oracle plus classifyBatch — is the supplied function
processShard. -/
def librarianMapReduce {ρ μ ε : Type} (processShard : List ρ → Except ε (List μ))
    (shards : List (List ρ)) : Except ε (List μ) :=
  match promiseAll (shards.map processShard) with
  | Except.error e => Except.error e
  | Except.ok shardResults => Except.ok shardResults.flatten

/-- The categorized-item fields of processLibrarianShard that the invariant
claims talk about: the normalized display name together with the category the
classifier assigned. -/
structure LibrarianItem where
  normalizedName : String
  category : String
  deriving DecidableEq

/-- The categorization step of processLibrarianShard (geminiService.ts):
classify the shard's names with classifyBatch and give item i the parent
category of classification i (items.map with index, rendered as zip since
classifyBatch returns exactly one result per input). -/
noncomputable def categorizeShard (embed : String → List ℝ)
    (anchors : List Worker.Anchor) (names : List String) : List LibrarianItem :=
  let classifications := Worker.classifyBatch embed anchors names
  (names.zip classifications).map fun p =>
    { normalizedName := p.1, category := p.2.parentCategory }

/-- The inventory fields runAgentMatcher reads when hydrating a match
(geminiService.ts). -/
structure MasterInventoryItem where
  id : String
  normalizedName : String
  brand : String
  price : String
  unit : String
  dealDescription : String
  isLossLeader : Bool
  deriving DecidableEq

/-- One entry of the matcher oracle's matches array. -/
structure RawMatch where
  id : String
  itemName : String
  dealDescription : String
  confidence : ℚ
  deriving DecidableEq

/-- A hydrated match: the original inventory data spread first, the matcher
fields spread over it, then the display aliases. -/
structure GroceryMatch where
  id : String
  itemName : String
  dealDescription : String
  confidence : ℚ
  normalizedName : String
  price : String
  productName : String
  quantity : String
  brand : String
  isSale : Bool
  deriving DecidableEq

/-- The non-null branch of the hydration map in runAgentMatcher:
{...originalItem, ...m, productName, quantity, brand, isSale} — matcher fields
override the shared keys, the aliases are taken from the inventory item. -/
def hydrateMatch (originalItem : MasterInventoryItem) (m : RawMatch) : GroceryMatch :=
  { id := m.id
    itemName := m.itemName
    dealDescription := m.dealDescription
    confidence := m.confidence
    normalizedName := originalItem.normalizedName
    price := originalItem.price
    productName := originalItem.normalizedName
    quantity := originalItem.unit
    brand := originalItem.brand
    isSale := originalItem.isLossLeader }

/-- The hydration step of runAgentMatcher (geminiService.ts lines 346-358):
map each raw match to the hydrated record when inventory.find locates its id
and to null otherwise, then filter the nulls out (map + filter rendered as
Option-map + reduceOption). -/
def hydrateMatches (inventory : List MasterInventoryItem)
    (rawMatches : List RawMatch) : List GroceryMatch :=
  (rawMatches.map fun m =>
    match inventory.find? (fun i => i.id == m.id) with
    | none => none
    | some originalItem => some (hydrateMatch originalItem m)).reduceOption

end Gemini

/- Concrete instances used by the closed theorems below. -/

/-- A one-dimensional embedding oracle mapping every text to the vector [1]. -/
noncomputable def oneEmbed : String → List ℝ := fun _ => [1]

/-- The Seafood subcategory descriptor (a row of the taxonomy table). -/
def seafoodSub : SubCategory :=
  { name := "Seafood"
    parent := "Meat & Seafood"
    embeddingText := "Seafood: Salmon, Shrimp, Fresh fish, Tuna, Crab, Lobster" }

/-- An anchor cache entry whose vector is exactly antipodal to oneEmbed's
output. -/
noncomputable def antipodalAnchor : Worker.Anchor :=
  { vector := [-1], subCategory := seafoodSub }

/-- The Fresh Fruit subcategory descriptor (a row of the taxonomy table). -/
def freshFruitSub : SubCategory :=
  { name := "Fresh Fruit"
    parent := "Produce"
    embeddingText := "Fresh Fruit: Apples, Bananas, Berries, Grapes, Oranges, Melons" }

/-- An anchor cache entry aligned with oneEmbed's output. -/
noncomputable def alignedAnchor : Worker.Anchor :=
  { vector := [1], subCategory := freshFruitSub }

/-- A shard-map oracle that always succeeds with its input shard. -/
def okShardOracle : List ℕ → Except String (List ℕ) := fun shard => Except.ok shard

/-- A shard-map oracle that always fails. -/
def failShardOracle : List ℕ → Except String (List ℕ) := fun _ => Except.error "boom"

/-- A concrete inventory item for the hydration scenario. -/
def chipsItem : Gemini.MasterInventoryItem :=
  { id := "inv-1"
    normalizedName := "Potato Chips"
    brand := "Brand A"
    price := "$2.99"
    unit := "12oz"
    dealDescription := "Save $1"
    isLossLeader := true }

/-- A matcher-oracle entry whose id is present in the inventory. -/
def chipsRawMatch : Gemini.RawMatch :=
  { id := "inv-1", itemName := "Chips", dealDescription := "Save $1", confidence := 1 }

/-- A matcher-oracle entry whose id matches no inventory item. -/
def ghostRawMatch : Gemini.RawMatch :=
  { id := "ghost", itemName := "Ghost", dealDescription := "", confidence := 1 }

/- ------------------------------------------------------------------ -/
/- Theorems.                                                           -/
/- ------------------------------------------------------------------ -/

/-- Helper: the ceiling count of a partition step.  Removing one full (or
final partial) shard of size n from a list of positive length L turns the
ceiling quotient for L into one plus the ceiling quotient for L - n. -/
theorem ceil_div_step {n L : ℕ} (hn : 0 < n) (hL : 0 < L) :
    (L - n + n - 1) / n + 1 = (L + n - 1) / n := by
  rcases le_or_lt L n with h | h
  · have h1 : L - n = 0 := by omega
    have h2 : (0 + n - 1) / n = 0 := Nat.div_eq_of_lt (by omega)
    have h3 : (L + n - 1) / n = 1 := Nat.div_eq_of_lt_le (by omega) (by omega)
    rw [h1, h2, h3]
  · have h1 : L - n + n - 1 = L - 1 := by omega
    have h2 : L + n - 1 = L - 1 + n := by omega
    rw [h1, h2, Nat.add_div_right _ hn]

/-- Helper: with fuel exceeding the remaining length and a positive shard
size, one run of the createShards loop from a given suffix succeeds and
produces the claimed partition: the shards concatenate back to the suffix,
their count is the ceiling quotient, and all but the last have full size. -/
theorem createShardsGo_spec {α : Type} {n : ℕ} (hn : 0 < n) :
    ∀ (fuel : ℕ) (rest : List α), rest.length < fuel →
      ∃ shards, Chunking.createShardsGo fuel rest n = some shards ∧
        shards.flatten = rest ∧
        shards.length = (rest.length + n - 1) / n ∧
        ∀ sh ∈ shards.dropLast, sh.length = n := by
  intro fuel
  induction fuel with
  | zero => intro rest h; omega
  | succ fuel ih =>
    intro rest hlen
    match rest with
    | [] =>
      refine ⟨[], by simp [Chunking.createShardsGo], rfl, ?_, by simp⟩
      have : (0 + n - 1) / n = 0 := Nat.div_eq_of_lt (by omega)
      simpa using this.symm
    | x :: xs =>
      have hlen' : ((x :: xs).drop n).length < fuel := by
        rw [List.length_drop]
        simp only [List.length_cons] at hlen ⊢
        omega
      obtain ⟨shards', heq', hflat', hcount', hlast'⟩ := ih ((x :: xs).drop n) hlen'
      refine ⟨(x :: xs).take n :: shards', ?_, ?_, ?_, ?_⟩
      · simp only [Chunking.createShardsGo, List.isEmpty_cons, heq']
        rfl
      · simp only [List.flatten_cons, hflat', List.take_append_drop]
      · simp only [List.length_cons, hcount', List.length_drop, List.length_cons]
        exact ceil_div_step hn (by omega)
      · match shards' with
        | [] => intro sh hsh; simp at hsh
        | s :: ss =>
          intro sh hsh
          rw [List.dropLast_cons₂] at hsh
          rcases List.mem_cons.1 hsh with hhd | htl
          · -- the head shard is full: the tail run was non-empty, so n ≤ length
            have hnle : n ≤ (x :: xs).length := by
              by_contra hlt
              have hzero : ((x :: xs).drop n).length = 0 := by
                rw [List.length_drop]; omega
              have : (s :: ss).length = 0 := by
                rw [hcount', hzero]
                exact Nat.div_eq_of_lt (by omega)
              simp at this
            rw [hhd, List.length_take]
            omega
          · exact hlast' sh htl

/-- Claim C2: for non-empty items and positive shard size, createShards
terminates and partitions: the shards concatenate back to the input, the
shard count is the ceiling of length over shard size, and every shard but
possibly the last has exactly shardSize elements. -/
theorem claim_c2_createShards_partition {α : Type} (items : List α) (n : ℕ)
    (_hne : items ≠ []) (hn : 0 < n) :
    ∃ shards, Chunking.createShards items n = some shards ∧
      shards.flatten = items ∧
      shards.length = (items.length + n - 1) / n ∧
      ∀ sh ∈ shards.dropLast, sh.length = n := by
  have := createShardsGo_spec (α := α) hn (items.length + 1) items (by omega)
  simpa [Chunking.createShards] using this

/-- Witness for C2 at items = [1,2,3,4,5], shardSize = 2. -/
theorem claim_c2_createShards_partition_witness :
    ∃ shards, Chunking.createShards [1, 2, 3, 4, 5] 2 = some shards ∧
      shards.flatten = [1, 2, 3, 4, 5] ∧
      shards.length = (([1, 2, 3, 4, 5] : List ℕ).length + 2 - 1) / 2 ∧
      ∀ sh ∈ shards.dropLast, sh.length = 2 :=
  claim_c2_createShards_partition [1, 2, 3, 4, 5] 2 (by decide) (by decide)

/-- Claim C10: with shardSize at least 1 the createShards loop terminates
(the fuel bound items.length + 1 always suffices), and on the empty list it
returns an empty shard list. -/
theorem claim_c10_createShards_total {α : Type} (items : List α) (n : ℕ) :
    (0 < n → (Chunking.createShards items n).isSome = true) ∧
    Chunking.createShards ([] : List α) n = some [] := by
  constructor
  · intro hn
    obtain ⟨shards, heq, -⟩ := createShardsGo_spec (α := α) hn (items.length + 1) items (by omega)
    simp [Chunking.createShards, heq]
  · rfl

/-- Witness for C10 at items = [7,8,9], shardSize = 2. -/
theorem claim_c10_createShards_total_witness :
    (Chunking.createShards [7, 8, 9] 2).isSome = true ∧
    Chunking.createShards ([] : List ℕ) 2 = some [] :=
  ⟨(claim_c10_createShards_total [7, 8, 9] 2).1 (by decide),
   (claim_c10_createShards_total [7, 8, 9] 2).2⟩

/-- Helper: a sum of squares is nonnegative. -/
theorem sumSq_nonneg (a : List ℝ) : 0 ≤ sumSq a := by
  refine List.sum_nonneg ?_
  intro x hx
  obtain ⟨y, -, rfl⟩ := List.mem_map.1 hx
  exact mul_self_nonneg y

/-- Helper: the dot product is symmetric. -/
theorem dotList_comm (a b : List ℝ) : dotList a b = dotList b a := by
  unfold dotList
  rw [List.zipWith_comm_of_comm (fun x y => x * y) mul_comm]

/-- Helper: the dot product of a vector with itself is its sum of squares. -/
theorem dotList_self (a : List ℝ) : dotList a a = sumSq a := by
  induction a with
  | nil => rfl
  | cons x xs ih =>
    unfold dotList sumSq at ih ⊢
    simp only [List.zipWith_cons_cons, List.map_cons, List.sum_cons, ih]

/-- Claim C3: the chunking cosineSimilarity of equal-length vectors returns
ok 0 (not an error) whenever either squared norm is exactly 0. -/
theorem claim_c3_cosine_zero_vector (a b : List ℝ) (hlen : a.length = b.length)
    (h0 : sumSq a = 0 ∨ sumSq b = 0) :
    Chunking.cosineSimilarity a b = Except.ok 0 := by
  unfold Chunking.cosineSimilarity
  rw [if_neg (fun h => h hlen)]
  have hd : Real.sqrt (sumSq a) * Real.sqrt (sumSq b) = 0 := by
    rcases h0 with h | h
    · rw [h, Real.sqrt_zero, zero_mul]
    · rw [h, Real.sqrt_zero, mul_zero]
  rw [if_pos hd]

/-- Witness for C3 at the zero vectors of dimension 2. -/
theorem claim_c3_cosine_zero_vector_witness :
    Chunking.cosineSimilarity [(0 : ℝ), 0] [0, 0] = Except.ok 0 :=
  claim_c3_cosine_zero_vector [0, 0] [0, 0] rfl
    (Or.inl (by simp [sumSq]))

/-- Counterexample for C8 as stated: self-similarity of the zero vector is 0,
not 1 (the zero-denominator guard of the chunking cosineSimilarity fires). -/
theorem claim_c8_counterexample :
    Chunking.cosineSimilarity [(0 : ℝ)] [0] = Except.ok 0 ∧
    (Except.ok (0 : ℝ) : Except String ℝ) ≠ Except.ok (1 : ℝ) := by
  constructor
  · unfold Chunking.cosineSimilarity
    rw [if_neg (fun h => h rfl)]
    have hd : Real.sqrt (sumSq [(0 : ℝ)]) * Real.sqrt (sumSq [(0 : ℝ)]) = 0 := by
      have h0 : sumSq [(0 : ℝ)] = 0 := by simp [sumSq]
      rw [h0, Real.sqrt_zero, zero_mul]
    rw [if_pos hd]
  · intro h
    exact zero_ne_one (Except.ok.inj h)

/-- Claim C8 (amended): the chunking cosineSimilarity is symmetric in its two
arguments, and the self-similarity of any vector with nonzero squared norm is
exactly 1 in exact arithmetic; self-similarity of a zero vector is 0, not 1. -/
theorem claim_c8_cosine_symm_self :
    (∀ a b : List ℝ, Chunking.cosineSimilarity a b = Chunking.cosineSimilarity b a) ∧
    (∀ a : List ℝ, sumSq a ≠ 0 → Chunking.cosineSimilarity a a = Except.ok 1) := by
  constructor
  · intro a b
    unfold Chunking.cosineSimilarity
    rcases eq_or_ne a.length b.length with h | h
    · rw [if_neg (fun hh => hh h)]
      conv_rhs => rw [if_neg (fun hh => hh h.symm)]
      rw [dotList_comm a b, mul_comm (Real.sqrt (sumSq a)) (Real.sqrt (sumSq b))]
    · rw [if_pos h, if_pos (Ne.symm h)]
  · intro a ha
    unfold Chunking.cosineSimilarity
    rw [if_neg (fun hh => hh rfl)]
    have hd : Real.sqrt (sumSq a) * Real.sqrt (sumSq a) = sumSq a :=
      Real.mul_self_sqrt (sumSq_nonneg a)
    rw [if_neg (show ¬Real.sqrt (sumSq a) * Real.sqrt (sumSq a) = 0 from by
      rw [hd]; exact ha)]
    rw [dotList_self, hd, div_self ha]

/-- Witness for C8 (amended): symmetry at a concrete pair, and
self-similarity 1 at the vector [2]. -/
theorem claim_c8_cosine_symm_self_witness :
    Chunking.cosineSimilarity [(1 : ℝ), 2] [3, 4] =
      Chunking.cosineSimilarity [3, 4] [(1 : ℝ), 2] ∧
    Chunking.cosineSimilarity [(2 : ℝ)] [2] = Except.ok 1 :=
  ⟨claim_c8_cosine_symm_self.1 [1, 2] [3, 4],
   claim_c8_cosine_symm_self.2 [2] (by simp [sumSq])⟩

/-- Helper: the self-similarity of the vector [1] under the worker cosine. -/
theorem cos_one_one : Worker.cosineSimilarity [(1 : ℝ)] [1] = 1 := by
  simp [Worker.cosineSimilarity, dotList, sumSq, Real.sqrt_one]

/-- Helper: the worker cosine of the antipodal pair [1] and [-1] is exactly
-1, the classify loop's initial sentinel value. -/
theorem cos_one_neg_one : Worker.cosineSimilarity [(1 : ℝ)] [-1] = -1 := by
  simp [Worker.cosineSimilarity, dotList, sumSq, Real.sqrt_one]

/-- Helper: when no anchor's similarity strictly exceeds the running maximum,
the classify loop leaves its accumulator untouched. -/
theorem classifyLoop_no_improve (v : List ℝ) :
    ∀ (anchors : List Worker.Anchor) (m : ℝ) (b : Option SubCategory),
      (∀ a ∈ anchors, Worker.cosineSimilarity v a.vector ≤ m) →
      Worker.classifyLoop v anchors m b = (m, b) := by
  intro anchors
  induction anchors with
  | nil => intro m b _; rfl
  | cons a rest ih =>
    intro m b h
    have ha : Worker.cosineSimilarity v a.vector ≤ m := h a (List.mem_cons_self a rest)
    simp only [Worker.classifyLoop]
    rw [if_neg (not_lt.mpr ha)]
    exact ih m b fun x hx => h x (List.mem_cons_of_mem a hx)

/-- Helper: whenever some anchor's similarity strictly exceeds the incoming
maximum, the classify loop returns the first anchor attaining the overall
maximum, paired with that maximal similarity. -/
theorem classifyLoop_first_max (v : List ℝ) :
    ∀ (anchors : List Worker.Anchor) (m : ℝ) (b : Option SubCategory),
      (∃ a ∈ anchors, m < Worker.cosineSimilarity v a.vector) →
      ∃ i, ∃ hi : i < anchors.length,
        Worker.classifyLoop v anchors m b =
          (Worker.cosineSimilarity v (anchors.get ⟨i, hi⟩).vector,
           some (anchors.get ⟨i, hi⟩).subCategory) ∧
        m < Worker.cosineSimilarity v (anchors.get ⟨i, hi⟩).vector ∧
        (∀ x ∈ anchors, Worker.cosineSimilarity v x.vector ≤
          Worker.cosineSimilarity v (anchors.get ⟨i, hi⟩).vector) ∧
        ∀ j, ∀ hj : j < anchors.length, j < i →
          Worker.cosineSimilarity v (anchors.get ⟨j, hj⟩).vector <
            Worker.cosineSimilarity v (anchors.get ⟨i, hi⟩).vector := by
  intro anchors
  induction anchors with
  | nil => intro m b h; simp at h
  | cons a rest ih =>
    intro m b h
    by_cases hc : m < Worker.cosineSimilarity v a.vector
    · by_cases hr : ∃ x ∈ rest,
        Worker.cosineSimilarity v a.vector < Worker.cosineSimilarity v x.vector
      · obtain ⟨i, hi, heq, hgt, hmax, hfirst⟩ :=
          ih (Worker.cosineSimilarity v a.vector) (some a.subCategory) hr
        refine ⟨i + 1, Nat.succ_lt_succ hi, ?_, ?_, ?_, ?_⟩
        · simp only [Worker.classifyLoop]
          rw [if_pos hc, List.get_cons_succ]
          exact heq
        · rw [List.get_cons_succ]
          exact lt_trans hc hgt
        · intro x hx
          rw [List.get_cons_succ]
          rcases List.mem_cons.1 hx with rfl | hx'
          · exact le_of_lt hgt
          · exact hmax x hx'
        · intro j hj hji
          match j with
          | 0 =>
            rw [List.get_cons_succ]
            exact hgt
          | j' + 1 =>
            rw [List.get_cons_succ, List.get_cons_succ]
            exact hfirst j' (Nat.lt_of_succ_lt_succ hj) (by omega)
      · push_neg at hr
        refine ⟨0, Nat.succ_pos _, ?_, hc, ?_, ?_⟩
        · simp only [Worker.classifyLoop]
          rw [if_pos hc]
          exact classifyLoop_no_improve v rest _ _ hr
        · intro x hx
          rcases List.mem_cons.1 hx with rfl | hx'
          · exact le_refl _
          · exact hr x hx'
        · intro j hj hji
          omega
    · obtain ⟨x, hx, hmx⟩ := h
      have hxr : x ∈ rest := by
        rcases List.mem_cons.1 hx with rfl | h'
        · exact absurd hmx hc
        · exact h'
      obtain ⟨i, hi, heq, hgt, hmax, hfirst⟩ := ih m b ⟨x, hxr, hmx⟩
      refine ⟨i + 1, Nat.succ_lt_succ hi, ?_, ?_, ?_, ?_⟩
      · simp only [Worker.classifyLoop]
        rw [if_neg hc, List.get_cons_succ]
        exact heq
      · rw [List.get_cons_succ]
        exact hgt
      · intro y hy
        rw [List.get_cons_succ]
        rcases List.mem_cons.1 hy with rfl | hy'
        · exact le_of_lt (lt_of_le_of_lt (not_lt.1 hc) hgt)
        · exact hmax y hy'
      · intro j hj hji
        match j with
        | 0 =>
          rw [List.get_cons_succ]
          exact lt_of_le_of_lt (not_lt.1 hc) hgt
        | j' + 1 =>
          rw [List.get_cons_succ, List.get_cons_succ]
          exact hfirst j' (Nat.lt_of_succ_lt_succ hj) (by omega)

/-- Helper: the bestMatch the classify loop returns is either the incoming
accumulator or the subcategory of one of the scanned anchors. -/
theorem classifyLoop_best_mem (v : List ℝ) :
    ∀ (anchors : List Worker.Anchor) (m : ℝ) (b : Option SubCategory),
      (Worker.classifyLoop v anchors m b).2 = b ∨
        ∃ a ∈ anchors, (Worker.classifyLoop v anchors m b).2 = some a.subCategory := by
  intro anchors
  induction anchors with
  | nil => intro m b; left; rfl
  | cons a rest ih =>
    intro m b
    simp only [Worker.classifyLoop]
    by_cases hc : m < Worker.cosineSimilarity v a.vector
    · rw [if_pos hc]
      rcases ih (Worker.cosineSimilarity v a.vector) (some a.subCategory) with h | ⟨x, hx, h⟩
      · exact Or.inr ⟨a, List.mem_cons_self a rest, h⟩
      · exact Or.inr ⟨x, List.mem_cons_of_mem a hx, h⟩
    · rw [if_neg hc]
      rcases ih m b with h | ⟨x, hx, h⟩
      · exact Or.inl h
      · exact Or.inr ⟨x, List.mem_cons_of_mem a hx, h⟩

/-- Claim C7: on an empty anchor cache, classifyItem returns the fixed
fallback (subCategory Unknown, parentCategory Pantry & Dry Goods,
similarity 0) rather than failing. -/
theorem claim_c7_empty_cache_fallback (embed : String → List ℝ) (itemText : String) :
    Worker.classifyItem embed [] itemText =
      { subCategory := "Unknown"
        parentCategory := "Pantry & Dry Goods"
        similarity := 0 } := rfl

/-- Claim C4: classifyBatch returns exactly one result per input text, and
its i-th entry is the classification of the i-th input text. -/
theorem claim_c4_batch_order (embed : String → List ℝ) (anchors : List Worker.Anchor)
    (items : List String) :
    (Worker.classifyBatch embed anchors items).length = items.length ∧
    ∀ i : ℕ, (Worker.classifyBatch embed anchors items).get? i =
      (items.get? i).map (Worker.classifyItem embed anchors) := by
  constructor
  · simp [Worker.classifyBatch]
  · intro i
    simp [Worker.classifyBatch]

/-- Counterexample for C1 as stated: a non-empty anchor cache whose only
anchor is exactly antipodal to the item vector.  The maximal-similarity
anchor is that anchor (with score -1), but because the loop's sentinel is -1
and the comparison is strict, classifyItem returns the fallback instead of
the maximal anchor's subcategory/parent pair. -/
theorem claim_c1_counterexample :
    Worker.classifyItem oneEmbed [antipodalAnchor] "Fresh Tuna" =
      { subCategory := "Unknown"
        parentCategory := "Pantry & Dry Goods"
        similarity := 0 } ∧
    Worker.cosineSimilarity (oneEmbed "Fresh Tuna") antipodalAnchor.vector = -1 ∧
    antipodalAnchor.subCategory.name = "Seafood" ∧
    ("Seafood" : String) ≠ "Unknown" := by
  refine ⟨?_, ?_, rfl, by decide⟩
  · unfold Worker.classifyItem
    simp only [oneEmbed, antipodalAnchor, Worker.classifyLoop, cos_one_neg_one]
    rw [if_neg (lt_irrefl (-1 : ℝ))]
  · show Worker.cosineSimilarity [(1 : ℝ)] [-1] = -1
    exact cos_one_neg_one

/-- Claim C1 (amended): for a non-empty anchor cache of nonzero-norm vectors
of the item vector's dimension, provided at least one similarity strictly
exceeds the loop's initial sentinel -1, classifyItem returns the
subcategory/parent pair of the first anchor attaining the maximal cosine
similarity, together with that similarity. -/
theorem claim_c1_classify_first_argmax (embed : String → List ℝ)
    (anchors : List Worker.Anchor) (itemText : String)
    (_hne : anchors ≠ [])
    (_hdim : ∀ a ∈ anchors, a.vector.length = (embed itemText).length)
    (_hvnz : sumSq (embed itemText) ≠ 0)
    (_hanz : ∀ a ∈ anchors, sumSq a.vector ≠ 0)
    (hgt : ∃ a ∈ anchors, -1 < Worker.cosineSimilarity (embed itemText) a.vector) :
    ∃ i, ∃ hi : i < anchors.length,
      Worker.classifyItem embed anchors itemText =
        { subCategory := (anchors.get ⟨i, hi⟩).subCategory.name
          parentCategory := (anchors.get ⟨i, hi⟩).subCategory.parent
          similarity :=
            Worker.cosineSimilarity (embed itemText) (anchors.get ⟨i, hi⟩).vector } ∧
      (∀ x ∈ anchors, Worker.cosineSimilarity (embed itemText) x.vector ≤
        Worker.cosineSimilarity (embed itemText) (anchors.get ⟨i, hi⟩).vector) ∧
      ∀ j, ∀ hj : j < anchors.length, j < i →
        Worker.cosineSimilarity (embed itemText) (anchors.get ⟨j, hj⟩).vector <
          Worker.cosineSimilarity (embed itemText) (anchors.get ⟨i, hi⟩).vector := by
  obtain ⟨i, hi, heq, -, hmax, hfirst⟩ :=
    classifyLoop_first_max (embed itemText) anchors (-1) none hgt
  refine ⟨i, hi, ?_, hmax, hfirst⟩
  unfold Worker.classifyItem
  simp only [heq]

/-- Witness for C1 (amended) at a singleton cache aligned with the item
vector. -/
theorem claim_c1_classify_first_argmax_witness :
    ∃ i, ∃ hi : i < ([alignedAnchor] : List Worker.Anchor).length,
      Worker.classifyItem oneEmbed [alignedAnchor] "Gala Apples" =
        { subCategory := (([alignedAnchor] : List Worker.Anchor).get ⟨i, hi⟩).subCategory.name
          parentCategory := (([alignedAnchor] : List Worker.Anchor).get ⟨i, hi⟩).subCategory.parent
          similarity := Worker.cosineSimilarity (oneEmbed "Gala Apples")
            (([alignedAnchor] : List Worker.Anchor).get ⟨i, hi⟩).vector } ∧
      (∀ x ∈ ([alignedAnchor] : List Worker.Anchor),
        Worker.cosineSimilarity (oneEmbed "Gala Apples") x.vector ≤
          Worker.cosineSimilarity (oneEmbed "Gala Apples")
            (([alignedAnchor] : List Worker.Anchor).get ⟨i, hi⟩).vector) ∧
      ∀ j, ∀ hj : j < ([alignedAnchor] : List Worker.Anchor).length, j < i →
        Worker.cosineSimilarity (oneEmbed "Gala Apples")
            (([alignedAnchor] : List Worker.Anchor).get ⟨j, hj⟩).vector <
          Worker.cosineSimilarity (oneEmbed "Gala Apples")
            (([alignedAnchor] : List Worker.Anchor).get ⟨i, hi⟩).vector :=
  claim_c1_classify_first_argmax oneEmbed [alignedAnchor] "Gala Apples"
    (by simp)
    (by intro a ha; simp only [List.mem_singleton] at ha; subst ha; rfl)
    (by show sumSq [(1 : ℝ)] ≠ 0; simp [sumSq])
    (by intro a ha; simp only [List.mem_singleton] at ha; subst ha
        show sumSq [(1 : ℝ)] ≠ 0; simp [sumSq])
    ⟨alignedAnchor, List.mem_singleton.2 rfl, by
      show (-1 : ℝ) < Worker.cosineSimilarity [(1 : ℝ)] [1]
      rw [cos_one_one]; norm_num⟩

/-- Helper: every subcategory in the flattened taxonomy list carries a parent
drawn from the 10 fixed parent names. -/
theorem sub_parent_mem :
    ∀ s ∈ Taxonomy.SUB_CATEGORIES, s.parent ∈ Taxonomy.PARENT_CATEGORIES := by
  have hp : ∀ pc ∈ Taxonomy.TAXONOMY_TREE, pc.1 ∈ Taxonomy.PARENT_CATEGORIES := by decide
  intro s hs
  unfold Taxonomy.SUB_CATEGORIES at hs
  rw [List.mem_flatten] at hs
  obtain ⟨l, hl, hsl⟩ := hs
  rw [List.mem_map] at hl
  obtain ⟨pc, hpc, rfl⟩ := hl
  rw [List.mem_map] at hsl
  obtain ⟨sub, hsub, rfl⟩ := hsl
  exact hp pc hpc

/-- Claim C5: when every cached anchor's descriptor comes from the taxonomy
table, every category the shard categorization step assigns (the classifier's
parentCategory — a matched anchor's parent or the fallback) is one of the 10
fixed parent category names. -/
theorem claim_c5_category_in_taxonomy (embed : String → List ℝ)
    (anchors : List Worker.Anchor) (names : List String)
    (hanchor : ∀ a ∈ anchors, a.subCategory ∈ Taxonomy.SUB_CATEGORIES) :
    ∀ it ∈ Gemini.categorizeShard embed anchors names,
      it.category ∈ Taxonomy.PARENT_CATEGORIES := by
  intro it hit
  unfold Gemini.categorizeShard at hit
  simp only [List.mem_map] at hit
  obtain ⟨p, hp, rfl⟩ := hit
  obtain ⟨p1, p2⟩ := p
  have hp2 : p2 ∈ Worker.classifyBatch embed anchors names := (List.of_mem_zip hp).2
  unfold Worker.classifyBatch at hp2
  rw [List.mem_map] at hp2
  obtain ⟨t, ht, rfl⟩ := hp2
  show (Worker.classifyItem embed anchors t).parentCategory ∈ Taxonomy.PARENT_CATEGORIES
  unfold Worker.classifyItem
  rcases classifyLoop_best_mem (embed t) anchors (-1) none with h | ⟨a, ha, h⟩
  · simp only [h]
    decide
  · simp only [h]
    exact sub_parent_mem a.subCategory (hanchor a ha)

/-- Witness for C5 at a singleton taxonomy-drawn cache: the assigned category
is Produce, a member of the parent list. -/
theorem claim_c5_category_in_taxonomy_witness :
    ∃ it, it ∈ Gemini.categorizeShard oneEmbed [alignedAnchor] ["Gala Apples"] ∧
      it.category ∈ Taxonomy.PARENT_CATEGORIES := by
  have hcls : Worker.classifyItem oneEmbed [alignedAnchor] "Gala Apples" =
      { subCategory := "Fresh Fruit", parentCategory := "Produce", similarity := 1 } := by
    unfold Worker.classifyItem
    simp only [oneEmbed, alignedAnchor, Worker.classifyLoop, cos_one_one]
    rw [if_pos (by norm_num : (-1 : ℝ) < 1)]
    rfl
  have hmem : ({ normalizedName := "Gala Apples", category := "Produce" } :
      Gemini.LibrarianItem) ∈ Gemini.categorizeShard oneEmbed [alignedAnchor] ["Gala Apples"] := by
    unfold Gemini.categorizeShard
    simp only [Worker.classifyBatch, List.map_cons, List.map_nil, hcls, List.zip]
    simp
  exact ⟨_, hmem,
    claim_c5_category_in_taxonomy oneEmbed [alignedAnchor] ["Gala Apples"]
      (by intro a ha; simp only [List.mem_singleton] at ha; subst ha
          show freshFruitSub ∈ Taxonomy.SUB_CATEGORIES; decide)
      _ hmem⟩

/-- Helper: the combined wait over a list of already-resolved promises
resolves to the list of their values. -/
theorem promiseAll_map_ok {ε α : Type} :
    ∀ results : List α,
      Gemini.promiseAll (results.map (Except.ok : α → Except ε α)) = Except.ok results := by
  intro results
  induction results with
  | nil => rfl
  | cons r rs ih =>
    simp only [List.map_cons, Gemini.promiseAll, ih]

/-- Helper: if entry i of the awaited list is a rejection and every earlier
entry resolved, the combined wait rejects with entry i's error. -/
theorem promiseAll_first_error {ε α : Type} :
    ∀ (xs : List (Except ε α)) (i : ℕ) (hi : i < xs.length) (e : ε),
      (∀ j, ∀ hj : j < xs.length, j < i → ∃ r, xs.get ⟨j, hj⟩ = Except.ok r) →
      xs.get ⟨i, hi⟩ = Except.error e →
      Gemini.promiseAll xs = Except.error e := by
  intro xs
  induction xs with
  | nil => intro i hi; simp at hi
  | cons x rest ih =>
    intro i hi e hprev herr
    match i with
    | 0 =>
      have hx : x = Except.error e := herr
      rw [hx]
      rfl
    | i' + 1 =>
      obtain ⟨r, hr⟩ := hprev 0 (by simp) (by omega)
      have hx : x = Except.ok r := hr
      have hrest : Gemini.promiseAll rest = Except.error e :=
        ih i' (Nat.lt_of_succ_lt_succ hi) e
          (fun j hj hji => hprev (j + 1) (Nat.succ_lt_succ hj) (Nat.succ_lt_succ hji))
          herr
      rw [hx]
      simp only [Gemini.promiseAll, hrest]

/-- Claim C6: the shard map-reduce is all-or-nothing.  If the map step of the
first failing shard rejects with error e, the whole orchestrator call returns
that error and no partial result; if every shard's map step succeeds, the
result is the in-order flattening of all shard results, dropping no item. -/
theorem claim_c6_all_or_nothing {ρ μ ε : Type}
    (processShard : List ρ → Except ε (List μ)) (shards : List (List ρ)) :
    (∀ (i : ℕ) (hi : i < shards.length) (e : ε),
      (∀ j, ∀ hj : j < shards.length, j < i →
        ∃ r, processShard (shards.get ⟨j, hj⟩) = Except.ok r) →
      processShard (shards.get ⟨i, hi⟩) = Except.error e →
      Gemini.librarianMapReduce processShard shards = Except.error e) ∧
    (∀ results : List (List μ),
      shards.map processShard = results.map Except.ok →
      Gemini.librarianMapReduce processShard shards = Except.ok results.flatten) := by
  constructor
  · intro i hi e hprev herr
    unfold Gemini.librarianMapReduce
    have hlen : i < (shards.map processShard).length := by simpa using hi
    have h : Gemini.promiseAll (shards.map processShard) = Except.error e := by
      refine promiseAll_first_error (shards.map processShard) i hlen e ?_ ?_
      · intro j hj hji
        obtain ⟨r, hr⟩ := hprev j (by simpa using hj) hji
        refine ⟨r, ?_⟩
        rw [List.get_map]
        exact hr
      · rw [List.get_map]
        exact herr
    rw [h]
  · intro results h
    unfold Gemini.librarianMapReduce
    rw [h, promiseAll_map_ok]

/-- Witness for C6: a failing oracle aborts the whole call with its error; a
succeeding oracle yields the order-preserving flattening. -/
theorem claim_c6_all_or_nothing_witness :
    Gemini.librarianMapReduce failShardOracle [[1, 2], [3]] = Except.error "boom" ∧
    Gemini.librarianMapReduce okShardOracle [[1, 2], [3]] =
      Except.ok ([[1, 2], [3]] : List (List ℕ)).flatten :=
  ⟨(claim_c6_all_or_nothing failShardOracle [[1, 2], [3]]).1 0 (by decide) "boom"
      (fun j hj hji => absurd hji (by omega)) rfl,
   (claim_c6_all_or_nothing okShardOracle [[1, 2], [3]]).2 [[1, 2], [3]] rfl⟩

/-- Helper: a raw match whose id the inventory lookup misses contributes
nothing to the hydrated list. -/
theorem hydrateMatches_cons_none (inv : List Gemini.MasterInventoryItem)
    (m : Gemini.RawMatch) (ms : List Gemini.RawMatch)
    (h : inv.find? (fun i => i.id == m.id) = none) :
    Gemini.hydrateMatches inv (m :: ms) = Gemini.hydrateMatches inv ms := by
  unfold Gemini.hydrateMatches
  simp only [List.map_cons, h, List.reduceOption_cons_of_none]

/-- Helper: a raw match whose id the inventory lookup finds contributes its
hydrated record at the head of the hydrated list. -/
theorem hydrateMatches_cons_some (inv : List Gemini.MasterInventoryItem)
    (m : Gemini.RawMatch) (ms : List Gemini.RawMatch)
    (orig : Gemini.MasterInventoryItem)
    (h : inv.find? (fun i => i.id == m.id) = some orig) :
    Gemini.hydrateMatches inv (m :: ms) =
      Gemini.hydrateMatch orig m :: Gemini.hydrateMatches inv ms := by
  unfold Gemini.hydrateMatches
  simp only [List.map_cons, h, List.reduceOption_cons_of_some]

/-- Claim C9: hydration silently drops exactly the matches whose id is absent
from the inventory (removing them beforehand changes nothing), every match
whose id the inventory lookup finds appears hydrated with that inventory
item's data, and every hydrated entry arises that way. -/
theorem claim_c9_hydrate (inventory : List Gemini.MasterInventoryItem)
    (rawMatches : List Gemini.RawMatch) :
    (Gemini.hydrateMatches inventory rawMatches =
      Gemini.hydrateMatches inventory
        (rawMatches.filter fun m => inventory.any fun i => i.id == m.id)) ∧
    (∀ m ∈ rawMatches, ∀ originalItem,
      inventory.find? (fun i => i.id == m.id) = some originalItem →
      Gemini.hydrateMatch originalItem m ∈ Gemini.hydrateMatches inventory rawMatches) ∧
    (∀ g ∈ Gemini.hydrateMatches inventory rawMatches,
      ∃ m ∈ rawMatches, ∃ originalItem,
        inventory.find? (fun i => i.id == m.id) = some originalItem ∧
        g = Gemini.hydrateMatch originalItem m) := by
  refine ⟨?_, ?_, ?_⟩
  · induction rawMatches with
    | nil => rfl
    | cons m ms ih =>
      cases hfind : inventory.find? (fun i => i.id == m.id) with
      | none =>
        have hany : (inventory.any fun i => i.id == m.id) = false := by
          rw [List.any_eq_false]
          intro x hx
          exact List.find?_eq_none.1 hfind x hx
        rw [hydrateMatches_cons_none inventory m ms hfind, ih]
        simp only [List.filter_cons, hany]
        rw [if_neg (by simp)]
      | some orig =>
        have hany : (inventory.any fun i => i.id == m.id) = true := by
          rw [List.any_eq_true]
          exact ⟨orig, List.mem_of_find?_eq_some hfind,
            List.find?_some (p := fun i : Gemini.MasterInventoryItem => i.id == m.id) hfind⟩
        rw [hydrateMatches_cons_some inventory m ms orig hfind]
        simp only [List.filter_cons, hany]
        rw [if_pos trivial, hydrateMatches_cons_some inventory m _ orig hfind, ih]
  · induction rawMatches with
    | nil => intro m hm; simp at hm
    | cons m0 ms ih =>
      intro m hm orig hfind
      rcases List.mem_cons.1 hm with rfl | hm'
      · rw [hydrateMatches_cons_some inventory m ms orig hfind]
        exact List.mem_cons_self _ _
      · cases hfind0 : inventory.find? (fun i => i.id == m0.id) with
        | none =>
          rw [hydrateMatches_cons_none inventory m0 ms hfind0]
          exact ih m hm' orig hfind
        | some o0 =>
          rw [hydrateMatches_cons_some inventory m0 ms o0 hfind0]
          exact List.mem_cons_of_mem _ (ih m hm' orig hfind)
  · induction rawMatches with
    | nil =>
      intro g hg
      simp only [Gemini.hydrateMatches, List.map_nil, List.reduceOption_nil] at hg
      simp at hg
    | cons m0 ms ih =>
      intro g hg
      cases hfind0 : inventory.find? (fun i => i.id == m0.id) with
      | none =>
        rw [hydrateMatches_cons_none inventory m0 ms hfind0] at hg
        obtain ⟨m, hm, orig, h1, h2⟩ := ih g hg
        exact ⟨m, List.mem_cons_of_mem _ hm, orig, h1, h2⟩
      | some o0 =>
        rw [hydrateMatches_cons_some inventory m0 ms o0 hfind0] at hg
        rcases List.mem_cons.1 hg with rfl | hg'
        · exact ⟨m0, List.mem_cons_self _ _, o0, hfind0, rfl⟩
        · obtain ⟨m, hm, orig, h1, h2⟩ := ih g hg'
          exact ⟨m, List.mem_cons_of_mem _ hm, orig, h1, h2⟩

/-- Witness for C9: with one inventory item and a match list holding one
known id and one unknown id, the known match appears hydrated and filtering
the unknown id away changes nothing. -/
theorem claim_c9_hydrate_witness :
    Gemini.hydrateMatch chipsItem chipsRawMatch ∈
      Gemini.hydrateMatches [chipsItem] [chipsRawMatch, ghostRawMatch] ∧
    Gemini.hydrateMatches [chipsItem] [chipsRawMatch, ghostRawMatch] =
      Gemini.hydrateMatches [chipsItem]
        ([chipsRawMatch, ghostRawMatch].filter fun m =>
          [chipsItem].any fun i => i.id == m.id) :=
  ⟨(claim_c9_hydrate [chipsItem] [chipsRawMatch, ghostRawMatch]).2.1 chipsRawMatch
      (List.mem_cons_self _ _) chipsItem (by decide),
   (claim_c9_hydrate [chipsItem] [chipsRawMatch, ghostRawMatch]).1⟩

end GroceryDealFinder
